import Mathlib

/-!
Shallow embedding of the order-ledger subsystem of the eventrabd backend
(`apps/orders/models.py`, `apps/orders/serializers.py`, `apps/orders/views.py`,
plus the catalog tables of `apps/events/models.py` that order creation reads).

Monetary `Decimal` fields are embedded as `ℚ` (exact arithmetic, as Decimal is),
dates as opaque `ℕ` stamps, user identities as `ℕ`, and nullable columns as
`Option`.  Each Django view/serializer method becomes a total Lean function;
request failure paths (`get_object_or_404`, `permission_denied`,
`ValidationError`, explicit error responses) become `Except String` results.
-/

/-- Status enum of `ServiceOrder.STATUS_CHOICES` (models.py). -/
inductive OrderStatus
  | pending
  | accepted
  | completed
  | cancelled
deriving DecidableEq, Repr

/-- One snapshot entry of `selected_services` as built in
`CreateServiceOrderView.create` (views.py): `{id, name, price}`. -/
structure ServiceLine where
  service_id : String
  name : String
  price : ℚ
deriving DecidableEq, Repr

/-- The `ServiceOrder` model (models.py).  Fields irrelevant to the order
ledger's logic (timestamps, the random primary key) are omitted; identity
references are embedded as numeric user ids. -/
structure ServiceOrder where
  seller : ℕ
  buyer : ℕ
  eventId : String
  buyer_name : String
  event_date : String
  event_time : String
  location : String
  selected_services : List ServiceLine
  seller_agreed : Bool
  status : OrderStatus
  total_amount : ℚ
  discount_price : ℚ
  advance_paid : ℚ
  is_fully_paid : Bool
  full_payment_date : Option ℕ
  invoice_file : Option String
deriving DecidableEq, Repr

/-- `ServiceOrder.apply_seller_update` (models.py lines 94-140): defaulting of
missing parameters to the stored values, clamping of negatives to 0, capping of
the discount at `total_amount`, recomputation of the net total (floored at 0)
and of `is_fully_paid`, with the first-time stamp of `full_payment_date`.
`today` stands for `timezone.now().date()`. -/
def ServiceOrder.apply_seller_update (o : ServiceOrder)
    (discount_price advance_paid : Option ℚ) (today : ℕ) : ServiceOrder :=
  let dp := discount_price.getD o.discount_price
  let ap := advance_paid.getD o.advance_paid
  let dp := if dp < 0 then 0 else dp
  let ap := if ap < 0 then 0 else ap
  let dp := if dp > o.total_amount then o.total_amount else dp
  let o := { o with discount_price := dp, advance_paid := ap }
  let net_total := o.total_amount - o.discount_price
  let net_total := if net_total < 0 then 0 else net_total
  if o.advance_paid ≥ net_total ∧ net_total > 0 then
    { o with is_fully_paid := true,
             full_payment_date :=
               if o.full_payment_date.isNone then some today else o.full_payment_date }
  else if net_total = 0 then
    { o with is_fully_paid := true,
             full_payment_date :=
               if o.full_payment_date.isNone then some today else o.full_payment_date }
  else
    { o with is_fully_paid := false }

/-- `ServiceOrder.remaining_amount` (models.py lines 142-148):
`total_amount - discount_price - advance_paid`, floored at 0. -/
def ServiceOrder.remaining_amount (o : ServiceOrder) : ℚ :=
  let rem := o.total_amount - o.discount_price - o.advance_paid
  if rem > 0 then rem else 0

/-- `ServiceOrderSerializer.get_net_total` (serializers.py lines 41-45):
`total_amount - discount_price`, with no floor of its own. -/
def get_net_total (o : ServiceOrder) : ℚ :=
  o.total_amount - o.discount_price

/-- `UpdateServiceSellerOrderSerializer.validate` (serializers.py lines 84-98):
rejects non-seller users, then rejects when the (explicitly supplied or stored)
discount exceeds `total_amount`.  `user_type` is `request.user.user_type`. -/
def sellerUpdateValidate (user_type : String) (o : ServiceOrder)
    (discount_price : Option ℚ) : Except String Unit :=
  if user_type ≠ "seller" then
    .error "Only sellers can update these fields."
  else
    let discount := discount_price.getD o.discount_price
    if discount > o.total_amount then
      .error "Discount cannot exceed total order amount."
    else
      .ok ()

/-- `UpdateServiceSellerOrderSerializer.update` (serializers.py lines 100-115):
sets `invoice_file` only when a non-null value was supplied, honors an
explicitly supplied `full_payment_date`, then delegates the financial
recomputation to `ServiceOrder.apply_seller_update`.  In `invoice_file`,
`none` covers both an omitted key and an explicit JSON null
(`validated_data.get("invoice_file", None)` followed by `is not None`). -/
def sellerUpdateApply (o : ServiceOrder)
    (discount_price advance_paid : Option ℚ)
    (invoice_file : Option String) (full_payment_date : Option ℕ)
    (today : ℕ) : ServiceOrder :=
  let discount := discount_price.getD o.discount_price
  let advance := advance_paid.getD o.advance_paid
  let o := match invoice_file with
    | some f => { o with invoice_file := some f }
    | none => o
  let fpd := match full_payment_date with
    | some d => some d
    | none => o.full_payment_date
  let o := match fpd with
    | some d => { o with full_payment_date := some d }
    | none => o
  o.apply_seller_update (some discount) (some advance) today

/-- `SellerUpdateServiceOrderView` (views.py lines 194-218): permission and
status checks of `get_object` (404 when the URL's seller slug does not match,
forbidden when the requester is not the order's seller, forbidden when the
order is cancelled), then serializer validation and the update itself. -/
def sellerUpdateOrder (slug_seller actor : ℕ) (user_type : String)
    (o : ServiceOrder)
    (discount_price advance_paid : Option ℚ)
    (invoice_file : Option String) (full_payment_date : Option ℕ)
    (today : ℕ) : Except String ServiceOrder :=
  if o.seller ≠ slug_seller then
    .error "Not found."
  else if o.seller ≠ actor then
    .error "Only seller can update this order."
  else if o.status = .cancelled then
    .error "Cannot update a cancelled order."
  else
    match sellerUpdateValidate user_type o discount_price with
    | .error e => .error e
    | .ok _ =>
        .ok (sellerUpdateApply o discount_price advance_paid
              invoice_file full_payment_date today)

/-- The statuses a buyer may submit through `BuyerUpdateOrderSerializer`
(serializers.py lines 59-69): its `ChoiceField` admits only these two. -/
inductive BuyerStatus
  | cancelled
  | completed
deriving DecidableEq, Repr

/-- `UpdateServiceOrderView` (views.py lines 76-116): `get_object` 404s when
the URL's buyer slug does not match the order's buyer, forbids a requester who
is not that buyer, and forbids orders outside `{pending, accepted}`; `update`
then either cancels, or completes with a conditional forced fully-paid
stamp (`net_total = total_amount - discount_price`, not floored here). -/
def buyerTransition (slug_buyer actor : ℕ) (o : ServiceOrder)
    (new_status : BuyerStatus) (today : ℕ) : Except String ServiceOrder :=
  if o.buyer ≠ slug_buyer then
    .error "Not found."
  else if o.buyer ≠ actor then
    .error "Only buyer can update this order."
  else if ¬ (o.status = .pending ∨ o.status = .accepted) then
    .error "Order cannot be updated after completion or cancellation."
  else
    match new_status with
    | .cancelled => .ok { o with status := .cancelled }
    | .completed =>
        let o := { o with status := .completed }
        let net_total := o.total_amount - o.discount_price
        if net_total ≤ 0 ∨ o.advance_paid ≥ net_total then
          .ok { o with is_fully_paid := true,
                       full_payment_date :=
                         if o.full_payment_date.isNone then some today
                         else o.full_payment_date }
        else
          .ok o

/-- Outcome of `DeleteServiceOrderView.destroy`: a soft cancellation keeping
the (mutated) record, or a hard deletion of the record. -/
inductive DeleteOutcome
  | cancelled (o : ServiceOrder)
  | deleted
deriving DecidableEq, Repr

/-- `DeleteServiceOrderView` (views.py lines 119-145): `get_object` 404s when
the URL's buyer slug does not match the order's buyer and forbids a requester
who is neither buyer nor seller; `destroy` cancels for the buyer of a pending
order, hard-deletes for the seller at any status, and rejects everything
else. -/
def destroyOrder (slug_buyer actor : ℕ) (o : ServiceOrder) :
    Except String DeleteOutcome :=
  if o.buyer ≠ slug_buyer then
    .error "Not found."
  else if o.buyer ≠ actor ∧ o.seller ≠ actor then
    .error "Not allowed to access this order."
  else if o.buyer = actor ∧ o.status = .pending then
    .ok (.cancelled { o with status := .cancelled })
  else if o.seller = actor then
    .ok .deleted
  else
    .error "You cannot delete this order."

/-- `AcceptOrderView.update` (views.py lines 171-190): 404 when the URL's
seller slug does not match the order's seller, forbidden when the requester is
not that seller; otherwise sets `seller_agreed := true` and
`status := accepted` with no check of the current status. -/
def acceptOrder (slug_seller actor : ℕ) (o : ServiceOrder) :
    Except String ServiceOrder :=
  if o.seller ≠ slug_seller then
    .error "Not found."
  else if o.seller ≠ actor then
    .error "Only the seller can accept this order"
  else
    .ok { o with seller_agreed := true, status := .accepted }

/-- An `Event` row (apps/events/models.py), restricted to the columns order
creation reads. -/
structure Event where
  id : String
  seller : ℕ
deriving DecidableEq, Repr

/-- An `EventServiceDetail` row joined with its `EventService`
(apps/events/models.py): the event it belongs to, the service's type token and
id, the display name `get_service_type_display()` yields, the price, and the
availability flag. -/
structure EventServiceDetail where
  eventId : String
  service_id : String
  service_type : String
  display_name : String
  price : ℚ
  is_available : Bool
deriving DecidableEq, Repr

/-- The catalog lookup inside the loop of `CreateServiceOrderView.create`
(views.py lines 43-57): `EventServiceDetail.objects.get(event=event,
service__service_type=service_type, is_available=True)`, with
`DoesNotExist` embedded as `none` (`continue` in the loop).  The
`(event, service)` unique constraint makes the matching row unique, so the
first match is the match. -/
def resolveServiceDetail (details : List EventServiceDetail)
    (eventId service_type : String) : Option EventServiceDetail :=
  details.find? fun d =>
    d.eventId == eventId && d.service_type == service_type && d.is_available

/-- `CreateServiceOrderView.create` (views.py lines 24-72): rejects a
requester who is not the buyer named in the URL, 404s when the event id does
not resolve, then folds over the requested service-type tokens, silently
dropping each token with no available line item, summing the resolved prices
into `total_amount` and snapshotting `{id, name, price}` into
`selected_services`; the order starts pending with zeroed financials. -/
def createServiceOrder (events : List Event)
    (details : List EventServiceDetail)
    (slug_buyer actor : ℕ) (buyer_name : String) (eventId : String)
    (selected_services : List String)
    (event_date event_time location : String) :
    Except String ServiceOrder :=
  if actor ≠ slug_buyer then
    .error "Only customer can create and order forms."
  else
    match events.find? (fun e => e.id == eventId) with
    | none => .error "Not found."
    | some ev =>
        let resolved := selected_services.filterMap
          (resolveServiceDetail details eventId)
        .ok
          { seller := ev.seller
            buyer := slug_buyer
            eventId := eventId
            buyer_name := buyer_name
            event_date := event_date
            event_time := event_time
            location := location
            selected_services :=
              resolved.map fun d => ⟨d.service_id, d.display_name, d.price⟩
            seller_agreed := false
            status := .pending
            total_amount := (resolved.map (·.price)).sum
            discount_price := 0
            advance_paid := 0
            is_fully_paid := false
            full_payment_date := none
            invoice_file := none }

/-! ### Concrete sample data used in scenario conjuncts and witnesses -/

/-- A freshly created pending order (all financial fields at their creation
defaults), parameterized by its `total_amount`. -/
def freshOrder (total : ℚ) : ServiceOrder :=
  { seller := 1
    buyer := 2
    eventId := "evt00001"
    buyer_name := "Buyer"
    event_date := "2026-01-01"
    event_time := "10:00"
    location := "Dhaka"
    selected_services := []
    seller_agreed := false
    status := .pending
    total_amount := total
    discount_price := 0
    advance_paid := 0
    is_fully_paid := false
    full_payment_date := none
    invoice_file := none }

/-! ### Theorems -/

/-- C1: after any `apply_seller_update` call, `is_fully_paid` is true exactly
when `net_total = 0` or `advance_paid ≥ net_total`, where
`net_total = max 0 (total_amount - discount_price)` over the post-clamp stored
values; with `total_amount = 1000` and supplied `discount_price = 1000` the
order is fully paid regardless of the supplied `advance_paid`, and with
`total_amount = 500`, `advance_paid = 500`, `discount_price = 0` the order is
fully paid. -/
theorem C1_fully_paid_rule :
    (∀ (o : ServiceOrder) (dp ap : Option ℚ) (today : ℕ),
      (o.apply_seller_update dp ap today).is_fully_paid = true ↔
        (max 0 (o.total_amount - (o.apply_seller_update dp ap today).discount_price) = 0 ∨
         (o.apply_seller_update dp ap today).advance_paid ≥
           max 0 (o.total_amount - (o.apply_seller_update dp ap today).discount_price)))
    ∧ (∀ (a : ℚ) (today : ℕ),
        ((freshOrder 1000).apply_seller_update (some 1000) (some a) today).is_fully_paid
          = true)
    ∧ ((freshOrder 500).apply_seller_update (some 0) (some 500) 20260101).is_fully_paid
        = true := by
  refine ⟨fun o dp ap today => ?_, fun a today => ?_, ?_⟩
  · simp only [ServiceOrder.apply_seller_update]
    split_ifs <;> simp_all <;>
      first
        | linarith
        | skip
    · exact lt_of_le_of_ne (by linarith) (Ne.symm (by assumption))
    · refine lt_of_le_of_ne (by assumption) fun he =>
        (by assumption : ¬ o.total_amount - dp.getD o.discount_price = 0) (by rw [he] ; ring)
    · by_contra hc
      push_neg at hc
      exact (by assumption : ¬ o.total_amount = 0)
        (le_antisymm
          ((by assumption : o.total_amount ≤ ap.getD o.advance_paid → o.total_amount ≤ 0) hc)
          (by assumption))
    · by_contra hc
      push_neg at hc
      have h1 := (by assumption :
        o.total_amount ≤ ap.getD o.advance_paid + dp.getD o.discount_price →
          o.total_amount ≤ dp.getD o.discount_price) hc
      exact (by assumption : ¬ o.total_amount - dp.getD o.discount_price = 0) (by linarith)
  · simp only [ServiceOrder.apply_seller_update, freshOrder]
    norm_num
  · simp only [ServiceOrder.apply_seller_update, freshOrder]
    norm_num

/-- The discount stored by `apply_seller_update` is the supplied (or kept)
value clamped below at 0 and then capped at `total_amount`. -/
lemma asu_discount (o : ServiceOrder) (dp ap : Option ℚ) (t : ℕ) :
    (o.apply_seller_update dp ap t).discount_price =
      min (max (dp.getD o.discount_price) 0) o.total_amount := by
  simp only [ServiceOrder.apply_seller_update]
  split_ifs <;> simp_all [max_def, min_def] <;> split_ifs <;> linarith

/-- The advance stored by `apply_seller_update` is the supplied (or kept)
value clamped below at 0. -/
lemma asu_advance (o : ServiceOrder) (dp ap : Option ℚ) (t : ℕ) :
    (o.apply_seller_update dp ap t).advance_paid =
      max (ap.getD o.advance_paid) 0 := by
  simp only [ServiceOrder.apply_seller_update]
  split_ifs <;> simp_all [max_def] <;> split_ifs <;> linarith

/-- `apply_seller_update` never changes `total_amount`. -/
lemma asu_total (o : ServiceOrder) (dp ap : Option ℚ) (t : ℕ) :
    (o.apply_seller_update dp ap t).total_amount = o.total_amount := by
  simp only [ServiceOrder.apply_seller_update]
  split_ifs <;> rfl

/-- `apply_seller_update` never changes `status`. -/
lemma asu_status (o : ServiceOrder) (dp ap : Option ℚ) (t : ℕ) :
    (o.apply_seller_update dp ap t).status = o.status := by
  simp only [ServiceOrder.apply_seller_update]
  split_ifs <;> rfl

/-- `apply_seller_update` never touches `invoice_file`. -/
lemma asu_invoice (o : ServiceOrder) (dp ap : Option ℚ) (t : ℕ) :
    (o.apply_seller_update dp ap t).invoice_file = o.invoice_file := by
  simp only [ServiceOrder.apply_seller_update]
  split_ifs <;> rfl

/-- A set `full_payment_date` survives any `apply_seller_update` call. -/
lemma asu_fpd_preserved (o : ServiceOrder) (dp ap : Option ℚ) (t : ℕ) (d : ℕ)
    (h : o.full_payment_date = some d) :
    (o.apply_seller_update dp ap t).full_payment_date = some d := by
  simp only [ServiceOrder.apply_seller_update]
  split_ifs <;> simp_all

/-- C2: `apply_seller_update` clamps a negative supplied discount or advance
to 0 first, then caps the discount at `total_amount`, so afterwards
`0 ≤ discount_price ≤ total_amount` and `0 ≤ advance_paid` (with
`total_amount` itself untouched). -/
theorem C2_clamping (o : ServiceOrder) (dp ap : Option ℚ) (today : ℕ)
    (htotal : 0 ≤ o.total_amount) :
    (o.apply_seller_update dp ap today).discount_price =
      min (max (dp.getD o.discount_price) 0) o.total_amount ∧
    (o.apply_seller_update dp ap today).advance_paid =
      max (ap.getD o.advance_paid) 0 ∧
    0 ≤ (o.apply_seller_update dp ap today).discount_price ∧
    (o.apply_seller_update dp ap today).discount_price ≤ o.total_amount ∧
    0 ≤ (o.apply_seller_update dp ap today).advance_paid ∧
    (o.apply_seller_update dp ap today).total_amount = o.total_amount := by
  refine ⟨asu_discount o dp ap today, asu_advance o dp ap today, ?_, ?_, ?_,
    asu_total o dp ap today⟩
  · rw [asu_discount]
    exact le_min (le_max_right _ _) htotal
  · rw [asu_discount]
    exact min_le_right _ _
  · rw [asu_advance]
    exact le_max_right _ _

/-- Witness for C2 at `total_amount = 100`, supplied discount `-5` and
advance `250`. -/
theorem C2_witness :
    0 ≤ (freshOrder 100).total_amount ∧
    (((freshOrder 100).apply_seller_update (some (-5)) (some 250) 1).discount_price =
        min (max ((some (-5) : Option ℚ).getD (freshOrder 100).discount_price) 0)
          (freshOrder 100).total_amount ∧
      ((freshOrder 100).apply_seller_update (some (-5)) (some 250) 1).advance_paid =
        max ((some (250:ℚ)).getD (freshOrder 100).advance_paid) 0 ∧
      0 ≤ ((freshOrder 100).apply_seller_update (some (-5)) (some 250) 1).discount_price ∧
      ((freshOrder 100).apply_seller_update (some (-5)) (some 250) 1).discount_price ≤
        (freshOrder 100).total_amount ∧
      0 ≤ ((freshOrder 100).apply_seller_update (some (-5)) (some 250) 1).advance_paid ∧
      ((freshOrder 100).apply_seller_update (some (-5)) (some 250) 1).total_amount =
        (freshOrder 100).total_amount) :=
  ⟨by norm_num [freshOrder],
   C2_clamping (freshOrder 100) (some (-5)) (some 250) 1 (by norm_num [freshOrder])⟩

/-- The serializer update path never changes `status`. -/
lemma sua_status (o : ServiceOrder) (dp ap : Option ℚ) (inv : Option String)
    (fpd : Option ℕ) (t : ℕ) :
    (sellerUpdateApply o dp ap inv fpd t).status = o.status := by
  simp only [sellerUpdateApply]
  cases inv <;> cases fpd <;> cases h : o.full_payment_date <;> simp_all [asu_status]

/-- The serializer update path changes `invoice_file` only to a supplied
non-null value. -/
lemma sua_invoice (o : ServiceOrder) (dp ap : Option ℚ) (inv : Option String)
    (fpd : Option ℕ) (t : ℕ) :
    (sellerUpdateApply o dp ap inv fpd t).invoice_file =
      match inv with
      | some f => some f
      | none => o.invoice_file := by
  simp only [sellerUpdateApply]
  cases inv <;> cases fpd <;> cases h : o.full_payment_date <;> simp_all [asu_invoice]

/-- An explicitly supplied `full_payment_date` is stored as given by the
serializer update path. -/
lemma sua_fpd_explicit (o : ServiceOrder) (dp ap : Option ℚ) (inv : Option String)
    (d : ℕ) (t : ℕ) :
    (sellerUpdateApply o dp ap inv (some d) t).full_payment_date = some d := by
  simp only [sellerUpdateApply]
  cases inv <;> simp_all [asu_fpd_preserved]

/-- A concrete completed order (seller 1, buyer 2, total 1000). -/
def completedOrder : ServiceOrder := { freshOrder 1000 with status := .completed }

/-- C3 counterexample: `completed` is not terminal — the seller's Accept on a
completed order succeeds and moves the status back to `accepted`. -/
theorem C3_counterexample :
    completedOrder.status = .completed ∧
    acceptOrder 1 1 completedOrder =
      .ok { completedOrder with seller_agreed := true, status := .accepted } ∧
    OrderStatus.accepted ≠ OrderStatus.completed :=
  ⟨rfl, rfl, by decide⟩

/-- C3 amended: for a completed or cancelled order, BuyerTransition always
fails, ApplySellerFinancials never changes the status, and Delete/Cancel never
produces the soft-cancel outcome; but Accept by the owning seller succeeds and
sets the status to `accepted`, so completed/cancelled are terminal for every
operation except Accept. -/
theorem C3_amended (o : ServiceOrder)
    (hterm : o.status = .completed ∨ o.status = .cancelled) :
    (∀ (sb a : ℕ) (ns : BuyerStatus) (t : ℕ) (o' : ServiceOrder),
       buyerTransition sb a o ns t ≠ .ok o') ∧
    (∀ (ss a : ℕ) (ut : String) (dp ap : Option ℚ) (inv : Option String)
       (fpd : Option ℕ) (t : ℕ) (o' : ServiceOrder),
       sellerUpdateOrder ss a ut o dp ap inv fpd t = .ok o' → o'.status = o.status) ∧
    (∀ (sb a : ℕ) (o' : ServiceOrder),
       destroyOrder sb a o ≠ .ok (.cancelled o')) ∧
    (∀ (ss a : ℕ) (o' : ServiceOrder),
       acceptOrder ss a o = .ok o' → o'.status = .accepted) := by
  refine ⟨?_, ?_, ?_, ?_⟩
  · intro sb a ns t o' h
    rcases hterm with ht | ht <;>
      simp only [buyerTransition, ht] at h <;> split_ifs at h <;> simp_all
  · intro ss a ut dp ap inv fpd t o' h
    simp only [sellerUpdateOrder] at h
    split_ifs at h
    cases hv : sellerUpdateValidate ut o dp <;> (rw [hv] at h; simp_all)
    have hs := sua_status o dp ap inv fpd t
    rw [h] at hs
    simp_all [sua_status]
  · intro sb a o' h
    rcases hterm with ht | ht <;>
      simp only [destroyOrder, ht] at h <;> split_ifs at h <;> simp_all
  · intro ss a o' h
    simp only [acceptOrder] at h
    split_ifs at h
    injection h with h
    rw [← h]

/-- Witness for C3 (amended) at the concrete completed order. -/
theorem C3_witness :
    (completedOrder.status = .completed ∨ completedOrder.status = .cancelled) ∧
    buyerTransition 2 2 completedOrder .completed 5 ≠ .ok completedOrder :=
  ⟨Or.inl rfl, (C3_amended completedOrder (Or.inl rfl)).1 2 2 .completed 5 completedOrder⟩

/-- C4: a set `full_payment_date` is never cleared or overwritten by the
automatic recomputation of `apply_seller_update` or of
BuyerTransition(completed); it is stamped with the current date exactly when
the order becomes fully paid while the date is unset; only an explicitly
supplied date replaces the stored value, and an omitted one leaves it be. -/
theorem C4_stamp_once :
    (∀ (o : ServiceOrder) (dp ap : Option ℚ) (t d : ℕ),
       o.full_payment_date = some d →
       (o.apply_seller_update dp ap t).full_payment_date = some d) ∧
    (∀ (o : ServiceOrder) (dp ap : Option ℚ) (t : ℕ),
       o.full_payment_date = none →
       (o.apply_seller_update dp ap t).is_fully_paid = true →
       (o.apply_seller_update dp ap t).full_payment_date = some t) ∧
    (∀ (sb a : ℕ) (o : ServiceOrder) (t d : ℕ) (o' : ServiceOrder),
       o.full_payment_date = some d →
       buyerTransition sb a o .completed t = .ok o' →
       o'.full_payment_date = some d) ∧
    (∀ (o : ServiceOrder) (dp ap : Option ℚ) (inv : Option String) (d t : ℕ),
       (sellerUpdateApply o dp ap inv (some d) t).full_payment_date = some d) ∧
    (∀ (o : ServiceOrder) (dp ap : Option ℚ) (inv : Option String) (t d : ℕ),
       o.full_payment_date = some d →
       (sellerUpdateApply o dp ap inv none t).full_payment_date = some d) := by
  refine ⟨fun o dp ap t d h => asu_fpd_preserved o dp ap t d h, ?_, ?_, ?_, ?_⟩
  · intro o dp ap t h hf
    simp only [ServiceOrder.apply_seller_update] at *
    split_ifs at * <;> simp_all
  · intro sb a o t d o' h hb
    simp only [buyerTransition] at hb
    split_ifs at hb <;> (try simp_all) <;> (try rw [← hb])
  · intro o dp ap inv d t
    exact sua_fpd_explicit o dp ap inv d t
  · intro o dp ap inv t d h
    simp only [sellerUpdateApply]
    cases inv <;> simp_all <;> exact asu_fpd_preserved _ _ _ _ _ (by simp)

/-- A concrete order whose `full_payment_date` is already set (day 11). -/
def paidOrder : ServiceOrder :=
  { freshOrder 300 with full_payment_date := some 11, is_fully_paid := true }

/-- Witness for C4: the stored stamp (day 11) survives a later update. -/
theorem C4_witness :
    paidOrder.full_payment_date = some 11 ∧
    (paidOrder.apply_seller_update (some 10) (some 0) 99).full_payment_date = some 11 :=
  ⟨rfl, C4_stamp_once.1 paidOrder (some 10) (some 0) 99 11 rfl⟩

/-- A sequence of `apply_seller_update` calls, in the order given. -/
def applySellerUpdates (o : ServiceOrder) (us : List (Option ℚ × Option ℚ))
    (t : ℕ) : ServiceOrder :=
  us.foldl (fun o u => o.apply_seller_update u.1 u.2 t) o

lemma fold_inv (us : List (Option ℚ × Option ℚ)) (t : ℕ) :
    ∀ o : ServiceOrder, 0 ≤ o.total_amount → o.discount_price ≤ o.total_amount →
      0 ≤ (applySellerUpdates o us t).total_amount ∧
      (applySellerUpdates o us t).discount_price ≤
        (applySellerUpdates o us t).total_amount := by
  induction us with
  | nil => intro o h1 h2; exact ⟨h1, h2⟩
  | cons u us ih =>
      intro o h1 h2
      have hstep : (o.apply_seller_update u.1 u.2 t).discount_price ≤
          (o.apply_seller_update u.1 u.2 t).total_amount := by
        rw [asu_total, asu_discount]
        exact min_le_right _ _
      have htot : 0 ≤ (o.apply_seller_update u.1 u.2 t).total_amount := by
        rw [asu_total]; exact h1
      simpa only [applySellerUpdates, List.foldl] using
        ih (o.apply_seller_update u.1 u.2 t) htot hstep

/-- C5: `remaining_amount` equals `max 0 (total - discount - advance)` and is
never negative; after any sequence of seller financial updates on an order
satisfying the creation invariant (`0 ≤ total` and `discount ≤ total`), the
serializer's `net_total` read and `remaining_amount` are non-negative; and
order creation establishes that invariant whenever the catalog prices are
non-negative. -/
theorem C5_nonneg :
    (∀ o : ServiceOrder,
       o.remaining_amount =
         max 0 (o.total_amount - o.discount_price - o.advance_paid) ∧
       0 ≤ o.remaining_amount) ∧
    (∀ (o : ServiceOrder) (us : List (Option ℚ × Option ℚ)) (t : ℕ),
       0 ≤ o.total_amount → o.discount_price ≤ o.total_amount →
       0 ≤ get_net_total (applySellerUpdates o us t) ∧
       0 ≤ (applySellerUpdates o us t).remaining_amount) ∧
    (∀ (events : List Event) (details : List EventServiceDetail)
       (sb a : ℕ) (bn eid : String) (toks : List String) (ed et loc : String)
       (o : ServiceOrder),
       (∀ d ∈ details, 0 ≤ d.price) →
       createServiceOrder events details sb a bn eid toks ed et loc = .ok o →
       0 ≤ o.total_amount ∧ o.discount_price ≤ o.total_amount) := by
  refine ⟨?_, ?_, ?_⟩
  · intro o
    constructor
    · simp only [ServiceOrder.remaining_amount, max_def]
      split_ifs <;> linarith
    · simp only [ServiceOrder.remaining_amount]
      split_ifs <;> linarith
  · intro o us t h1 h2
    have h := fold_inv us t o h1 h2
    constructor
    · simp only [get_net_total]
      linarith [h.1, h.2]
    · simp only [ServiceOrder.remaining_amount]
      split_ifs <;> linarith
  · intro events details sb a bn eid toks ed et loc o hp hok
    simp only [createServiceOrder] at hok
    split_ifs at hok
    cases hfind : events.find? (fun e => e.id == eid) <;> rw [hfind] at hok <;>
      simp_all
    obtain ⟨hfst, rest⟩ := hok
    have hsum : 0 ≤ ((toks.filterMap (resolveServiceDetail details eid)).map
        (fun x => x.price)).sum := by
      apply List.sum_nonneg
      intro x hx
      obtain ⟨d, hd, rfl⟩ := List.mem_map.mp hx
      obtain ⟨tok, htok, hres⟩ := List.mem_filterMap.mp hd
      exact hp d (List.mem_of_find?_eq_some hres)
    exact ⟨hsum, by simpa using hsum⟩

/-- Witness for C5 on a 100-total order after one discount-30/advance-20
update. -/
theorem C5_witness :
    (0 ≤ (freshOrder 100).total_amount ∧
     (freshOrder 100).discount_price ≤ (freshOrder 100).total_amount) ∧
    (0 ≤ get_net_total (applySellerUpdates (freshOrder 100) [(some 30, some 20)] 0) ∧
     0 ≤ (applySellerUpdates (freshOrder 100) [(some 30, some 20)] 0).remaining_amount) :=
  ⟨⟨by norm_num [freshOrder], by norm_num [freshOrder]⟩,
   C5_nonneg.2.1 (freshOrder 100) [(some 30, some 20)] 0
     (by norm_num [freshOrder]) (by norm_num [freshOrder])⟩

/-- C6: BuyerTransition succeeds only for the owning buyer on a pending or
accepted order; completing sets the status to `completed` and forces
`is_fully_paid := true` with the stamp-once date rule exactly when
`net_total ≤ 0` or `advance_paid ≥ net_total`, leaving both payment fields
untouched otherwise; completing a fresh pending 500-total order with advance
200 yields `completed`, not fully paid, date unset. -/
theorem C6_buyer_completed :
    (∀ (sb a : ℕ) (o : ServiceOrder) (ns : BuyerStatus) (t : ℕ) (o' : ServiceOrder),
       buyerTransition sb a o ns t = .ok o' →
       o.buyer = sb ∧ o.buyer = a ∧ (o.status = .pending ∨ o.status = .accepted)) ∧
    (∀ (sb a : ℕ) (o : ServiceOrder) (t : ℕ) (o' : ServiceOrder),
       buyerTransition sb a o .completed t = .ok o' →
       o'.status = .completed ∧
       ((o.total_amount - o.discount_price ≤ 0 ∨
         o.advance_paid ≥ o.total_amount - o.discount_price) →
          o'.is_fully_paid = true ∧
          (o.full_payment_date = none → o'.full_payment_date = some t)) ∧
       (¬ (o.total_amount - o.discount_price ≤ 0 ∨
           o.advance_paid ≥ o.total_amount - o.discount_price) →
          o'.is_fully_paid = o.is_fully_paid ∧
          o'.full_payment_date = o.full_payment_date)) ∧
    (buyerTransition 2 2 { freshOrder 500 with advance_paid := 200 } .completed 7 =
       .ok { freshOrder 500 with advance_paid := 200, status := .completed } ∧
     ({ freshOrder 500 with advance_paid := 200, status := .completed }
        : ServiceOrder).is_fully_paid = false ∧
     ({ freshOrder 500 with advance_paid := 200, status := .completed }
        : ServiceOrder).full_payment_date = none) := by
  refine ⟨?_, ?_, ?_, ?_, ?_⟩
  · intro sb a o ns t o' h
    simp only [buyerTransition] at h
    split_ifs at h with h1 h2 h3 <;> simp_all
  · intro sb a o t o' h
    simp only [buyerTransition] at h
    split_ifs at h with h1 h2 h3 h4 <;> simp_all <;> subst h <;> simp_all
  · simp only [buyerTransition, freshOrder]
    norm_num
  · norm_num [freshOrder]
  · norm_num [freshOrder]

/-- Witness for C6 at the 500-total/200-advance scenario order. -/
theorem C6_witness :
    ({ freshOrder 500 with advance_paid := 200, status := .completed }
      : ServiceOrder).status = .completed :=
  (C6_buyer_completed.2.1 2 2 { freshOrder 500 with advance_paid := 200 } 7
    { freshOrder 500 with advance_paid := 200, status := .completed }
    (by norm_num [buyerTransition, freshOrder])).1

/-- C7: an explicitly supplied discount exceeding `total_amount` makes the
update-path validator fail (so the explicit update endpoint can never
succeed), while the model-level `apply_seller_update` silently clamps the same
discount down to `total_amount`. -/
theorem C7_strict_vs_lenient :
    (∀ (o : ServiceOrder) (d : ℚ),
       d > o.total_amount →
       sellerUpdateValidate "seller" o (some d) =
         .error "Discount cannot exceed total order amount.") ∧
    (∀ (ss a : ℕ) (o : ServiceOrder) (d : ℚ) (ap : Option ℚ)
       (inv : Option String) (fpd : Option ℕ) (t : ℕ) (o' : ServiceOrder),
       d > o.total_amount →
       sellerUpdateOrder ss a "seller" o (some d) ap inv fpd t ≠ .ok o') ∧
    (∀ (o : ServiceOrder) (d : ℚ) (ap : Option ℚ) (t : ℕ),
       0 ≤ o.total_amount → d > o.total_amount →
       (o.apply_seller_update (some d) ap t).discount_price = o.total_amount) := by
  refine ⟨?_, ?_, ?_⟩
  · intro o d hd
    simp only [sellerUpdateValidate]
    split_ifs <;> simp_all
  · intro ss a o d ap inv fpd t o' hd hok
    have hv : sellerUpdateValidate "seller" o (some d) =
        .error "Discount cannot exceed total order amount." := by
      simp only [sellerUpdateValidate]
      split_ifs <;> simp_all
    simp only [sellerUpdateOrder] at hok
    split_ifs at hok
    rw [hv] at hok
    exact Except.noConfusion hok
  · intro o d ap t h0 hd
    rw [asu_discount]
    simp only [Option.getD_some]
    rw [max_eq_left (by linarith), min_eq_right (by linarith)]

/-- Witness for C7: discount 150 on a 100-total order is rejected by the
validator. -/
theorem C7_witness :
    (150:ℚ) > (freshOrder 100).total_amount ∧
    sellerUpdateValidate "seller" (freshOrder 100) (some 150) =
      .error "Discount cannot exceed total order amount." :=
  ⟨by norm_num [freshOrder],
   C7_strict_vs_lenient.1 (freshOrder 100) 150 (by norm_num [freshOrder])⟩

/-- `filterMap` keeps exactly the entries on which the function hits. -/
lemma length_filterMap_eq_length_filter {α β : Type} (f : α → Option β)
    (l : List α) :
    (l.filterMap f).length = (l.filter (fun a => (f a).isSome)).length := by
  induction l with
  | nil => rfl
  | cons a l ih =>
      cases h : f a <;> simp [List.filterMap_cons, List.filter_cons, h, ih]

/-- The catalog row of the C8 scenario: an available catering line item. -/
def cateringService : EventServiceDetail :=
  { eventId := "E1", service_id := "svc00001", service_type := "catering",
    display_name := "Catering", price := 300, is_available := true }

/-- The event of the C8 scenario. -/
def sampleEvent : Event := { id := "E1", seller := 1 }

/-- The order the C8 scenario must produce. -/
def cateringOrder : ServiceOrder :=
  { seller := 1, buyer := 2, eventId := "E1", buyer_name := "Buyer",
    event_date := "2026-01-01", event_time := "10:00", location := "Dhaka",
    selected_services := [⟨"svc00001", "Catering", 300⟩],
    seller_agreed := false, status := .pending, total_amount := 300,
    discount_price := 0, advance_paid := 0, is_fully_paid := false,
    full_payment_date := none, invoice_file := none }

/-- C8: creation fails with the not-found error when the event id does not
resolve; otherwise unresolvable service tokens are silently dropped,
`total_amount` is the sum of the resolved line prices, `selected_services`
holds the resolved snapshots (one per resolvable token); if no token resolves
the order is created with zero line items and total 0; and the
catering/unknown-token scenario yields exactly one line priced 300. -/
theorem C8_create :
    (∀ (events : List Event) (details : List EventServiceDetail)
       (sb : ℕ) (bn eid : String) (toks : List String) (ed et loc : String),
       events.find? (fun e => e.id == eid) = none →
       createServiceOrder events details sb sb bn eid toks ed et loc =
         .error "Not found.") ∧
    (∀ (events : List Event) (details : List EventServiceDetail)
       (sb a : ℕ) (bn eid : String) (toks : List String) (ed et loc : String)
       (o : ServiceOrder),
       createServiceOrder events details sb a bn eid toks ed et loc = .ok o →
       o.total_amount =
         ((toks.filterMap (resolveServiceDetail details eid)).map
           (fun d => d.price)).sum ∧
       o.selected_services =
         (toks.filterMap (resolveServiceDetail details eid)).map
           (fun d => ⟨d.service_id, d.display_name, d.price⟩) ∧
       o.selected_services.length =
         (toks.filter (fun tok =>
           (resolveServiceDetail details eid tok).isSome)).length) ∧
    (∀ (events : List Event) (details : List EventServiceDetail)
       (sb a : ℕ) (bn eid : String) (toks : List String) (ed et loc : String)
       (o : ServiceOrder),
       (∀ tok ∈ toks, resolveServiceDetail details eid tok = none) →
       createServiceOrder events details sb a bn eid toks ed et loc = .ok o →
       o.selected_services = [] ∧ o.total_amount = 0) ∧
    (createServiceOrder [sampleEvent] [cateringService] 2 2 "Buyer" "E1"
       ["catering", "unknown_token"] "2026-01-01" "10:00" "Dhaka" =
       .ok cateringOrder ∧
     cateringOrder.selected_services.length = 1 ∧
     cateringOrder.total_amount = cateringService.price) := by
  refine ⟨?_, ?_, ?_, ?_, ?_, ?_⟩
  · intro events details sb bn eid toks ed et loc hfind
    simp [createServiceOrder, hfind]
  · intro events details sb a bn eid toks ed et loc o hok
    simp only [createServiceOrder] at hok
    split_ifs at hok
    cases hfind : events.find? (fun e => e.id == eid) <;> rw [hfind] at hok <;>
      simp_all
    obtain ⟨hfst, rest⟩ := hok
    refine ⟨rfl, rfl, ?_⟩
    simp only [List.length_map]
    exact length_filterMap_eq_length_filter _ _
  · intro events details sb a bn eid toks ed et loc o hnone hok
    simp only [createServiceOrder] at hok
    split_ifs at hok
    cases hfind : events.find? (fun e => e.id == eid) <;> rw [hfind] at hok <;>
      simp_all
    obtain ⟨hfst, rest⟩ := hok
    have hfm : toks.filterMap (resolveServiceDetail details eid) = [] := by
      induction toks with
      | nil => rfl
      | cons tok toks ih =>
          rw [List.filterMap_cons, hnone tok (by simp)]
          exact ih (fun x hx => hnone x (by simp [hx]))
    simp [hfm]
  · simp [createServiceOrder, resolveServiceDetail, sampleEvent, cateringService,
      cateringOrder]
  · rfl
  · norm_num [cateringOrder, cateringService]

/-- Witness for C8 at the concrete catering catalog. -/
theorem C8_witness :
    cateringOrder.total_amount =
      (((["catering", "unknown_token"] : List String).filterMap
        (resolveServiceDetail [cateringService] "E1")).map
          (fun d => d.price)).sum :=
  (C8_create.2.1 [sampleEvent] [cateringService] 2 2 "Buyer" "E1"
    ["catering", "unknown_token"] "2026-01-01" "10:00" "Dhaka" cateringOrder
    (by simp [createServiceOrder, resolveServiceDetail, sampleEvent,
       cateringService, cateringOrder])).1

/-- C9: Delete/Cancel cancels (keeping the record) for the buyer of a
pending order, hard-deletes for the seller at any status (including
completed), and rejects any other actor as well as the buyer of a non-pending
order. -/
theorem C9_delete_dispatch :
    (∀ (o : ServiceOrder) (a : ℕ),
       a = o.buyer → o.status = .pending →
       destroyOrder o.buyer a o =
         .ok (.cancelled { o with status := .cancelled })) ∧
    (∀ (o : ServiceOrder) (a : ℕ),
       a = o.seller → a ≠ o.buyer →
       destroyOrder o.buyer a o = .ok .deleted) ∧
    (∀ (sb a : ℕ) (o : ServiceOrder) (out : DeleteOutcome),
       a ≠ o.buyer → a ≠ o.seller →
       destroyOrder sb a o ≠ .ok out) ∧
    (∀ (o : ServiceOrder) (a : ℕ),
       a = o.buyer → o.status ≠ .pending → a ≠ o.seller →
       destroyOrder o.buyer a o = .error "You cannot delete this order.") ∧
    destroyOrder completedOrder.buyer completedOrder.seller completedOrder =
      .ok .deleted := by
  refine ⟨?_, ?_, ?_, ?_, ?_⟩
  · intro o a ha hs
    simp only [destroyOrder]
    split_ifs <;> simp_all
  · intro o a ha hb
    simp only [destroyOrder]
    split_ifs <;> simp_all
  · intro sb a o out ha hb h
    simp only [destroyOrder] at h
    split_ifs at h <;> simp_all
  · intro o a ha hs hb
    simp only [destroyOrder]
    split_ifs <;> simp_all
  · simp [destroyOrder, completedOrder, freshOrder]

/-- Witness for C9: the seller's delete on a completed order hard-deletes. -/
theorem C9_witness :
    destroyOrder completedOrder.buyer completedOrder.seller completedOrder =
      .ok .deleted :=
  C9_delete_dispatch.2.1 completedOrder completedOrder.seller rfl (by decide)

/-- C10: the serializer update leaves `invoice_file` unchanged when the field
is omitted or null, and stores exactly the supplied value otherwise — so a set
invoice can only be replaced, never cleared, through this operation. -/
theorem C10_invoice_frame :
    ∀ (o : ServiceOrder) (dp ap : Option ℚ) (inv : Option String)
      (fpd : Option ℕ) (t : ℕ),
      (sellerUpdateApply o dp ap inv fpd t).invoice_file =
        match inv with
        | some f => some f
        | none => o.invoice_file :=
  fun o dp ap inv fpd t => sua_invoice o dp ap inv fpd t
